import Mathlib

/-!
Verification development for the IMAP synchronization core of the
`imap-browser` repository (server package, `src/unnamed/part_009`:
`ImapConnectionPool`, `ImapSyncService`, `EmailService`).

The TypeScript services are shallowly embedded as executable Lean
functions.  External collaborators are modelled explicitly:

* the relational store (drizzle) becomes explicit record lists threaded
  through each operation;
* the `imapflow` client commands become state transitions on a `Server`
  value plus an explicit network-event trace (so that "no network I/O"
  is a statement about the trace);
* `uuidv4()` row ids become a fresh-id counter supplied by the caller;
* ISO timestamp strings become `Nat` instants.

Each definition's doc comment names the source function it embeds.
-/

/-- JS `[...new Set(l)]`: deduplicate a list keeping the first occurrence
of every element (JS `Set` iteration is insertion order). -/
def jsSetDedup (seen : List String) : List String → List String
  | [] => []
  | x :: xs =>
    if seen.contains x then jsSetDedup seen xs
    else x :: jsSetDedup (x :: seen) xs

/-- JS `a.startsWith`-style check on character lists (helper for `strIncludes`). -/
def listStartsWith : List Char → List Char → Bool
  | [], _ => true
  | _ :: _, [] => false
  | p :: ps, c :: cs => p == c && listStartsWith ps cs

/-- JS `String.prototype.includes`: substring containment. -/
def listIncludes (pat : List Char) : List Char → Bool
  | [] => listStartsWith pat []
  | c :: cs => listStartsWith pat (c :: cs) || listIncludes pat cs

/-- JS `s.includes(pat)` on Lean strings. -/
def strIncludes (s pat : String) : Bool :=
  listIncludes pat.toList s.toList

/-- JS `s.toLowerCase()` (ASCII case folding, which is all the source feeds it). -/
def jsToLower (s : String) : String :=
  String.mk (s.toList.map Char.toLower)

/-- JS `s.replace('\\', '')`: remove the first occurrence of a character. -/
def removeFirstChar (ch : Char) : List Char → List Char
  | [] => []
  | c :: cs => if c == ch then cs else c :: removeFirstChar ch cs

/-- JS `s.replace('\\', '')` on strings. -/
def jsStripFirstBackslash (s : String) : String :=
  String.mk (removeFirstChar '\\' s.toList)

/-- JS `[...new Set(l)]` for numeric ids (first-occurrence order). -/
def jsSetDedupNat (seen : List Nat) : List Nat → List Nat
  | [] => []
  | x :: xs =>
    if seen.contains x then jsSetDedupNat seen xs
    else x :: jsSetDedupNat (x :: seen) xs

/-- JS `Map` lookup for a map built from an entry list (`new Map(entries)`),
where a later entry for the same key overwrites an earlier one. -/
def jsMapGet (entries : List (Nat × List String)) (k : Nat) : Option (List String) :=
  (entries.reverse.find? (fun e => e.1 == k)).map (fun e => e.2)

/-! ## Connection pool (`ImapConnectionPool`, part_009 lines 24–297) -/

/-- The payload of an imapflow `exists` event
(`{ path, count, prevCount }`), as received by `handleNewMail`. -/
structure ExistsInfo where
  path : String
  count : Nat
  prevCount : Nat
deriving DecidableEq, Repr

/-- `ImapConnectionPool.handleNewMail` (part_009 lines 282–292), the
handler wired to the client's `exists` event in `connect` (lines 124–126).
It computes `newCount = info.count - info.prevCount` and emits
`newMail(accountId, info.path, newCount)` exactly when `newCount > 0`.
The emitted event is modelled as `some (path, newCount)`; `none` means
no event is emitted. -/
def handleNewMail (info : ExistsInfo) : Option (String × Int) :=
  let newCount : Int := (info.count : Int) - (info.prevCount : Int)
  if newCount > 0 then some (info.path, newCount) else none

/-! ## Attachment detection (`ImapSyncService.findAttachments`, part_009 lines 753–794) -/

/-- A node of the imapflow `MessageStructureObject` tree, restricted to
the fields `findAttachments` reads: `type`, `disposition`,
`dispositionParameters.filename`, `parameters.name`, `size`, `id`,
`childNodes`. -/
inductive MsgStruct where
  | mk (type : String) (disposition : Option String)
       (dispFilename : Option String) (paramName : Option String)
       (size : Option Nat) (contentId : Option String)
       (childNodes : List MsgStruct)

/-- `childNodes` accessor. -/
def MsgStruct.children : MsgStruct → List MsgStruct
  | .mk _ _ _ _ _ _ cs => cs

/-- The attachment-metadata record pushed by `findAttachments`
(filename, contentType, size, contentId, disposition, partId). -/
structure AttInfo where
  filename : Option String
  contentType : Option String
  size : Option Nat
  contentId : Option String
  disposition : Option String
  partId : String
deriving DecidableEq, Repr

/-- The record built in `traverse` (part_009 lines 771–780):
`filename: node.dispositionParameters?.filename || node.parameters?.name`
(JS `||`, so an empty-string filename falls through),
`contentId: node.id || undefined`. -/
def attInfoOf (ty : String) (disp : Option String) (fn pn : Option String)
    (sz : Option Nat) (cid : Option String) (partId : String) : AttInfo :=
  { filename := match fn with
      | some f => if f == "" then pn else some f
      | none => pn
    contentType := some ty
    size := sz
    contentId := match cid with
      | some i => if i == "" then none else some i
      | none => none
    disposition := disp
    partId := partId }

mutual

/-- The inner `traverse(node, partId)` closure of `findAttachments`
(part_009 lines 770–787): records the node if its disposition is
`attachment` or `inline`, then recurses into `childNodes`, child
`index` receiving part id `partId + '.' + (index + 1)`. -/
def traverse : MsgStruct → String → List AttInfo
  | .mk ty disp fn pn sz cid children, partId =>
    (if disp == some "attachment" || disp == some "inline" then
      [attInfoOf ty disp fn pn sz cid partId]
    else []) ++ traverseChildren children partId 1

/-- The `node.childNodes.forEach((child, index) => traverse(child, partId + '.' + (index+1)))`
loop, with `idx` the 1-based child number. -/
def traverseChildren : List MsgStruct → String → Nat → List AttInfo
  | [], _, _ => []
  | c :: cs, partId, idx =>
    traverse c (partId ++ "." ++ toString idx) ++ traverseChildren cs partId (idx + 1)

end

/-- `ImapSyncService.findAttachments` (part_009 lines 753–794):
`if (structure) traverse(structure, '1')`, i.e. the root node is given
part id `'1'` and every child of the root `'1.<i>'`. -/
def findAttachments : Option MsgStruct → List AttInfo
  | none => []
  | some s => traverse s "1"

mutual

/-- Modelled from the spec: IMAP's part-addressing convention
(spec §4.3: "assigning each node a dotted part-path (`1`, `1.1`, `1.2`,
`2`, …) matching IMAP's part-addressing convention", §3: the `partId` is
"a server-side part identifier used to re-fetch content from IMAP").
`specNode node path` records the node (when its disposition marks it an
attachment/inline candidate) under the server-side path `path`, and its
children under `path.1`, `path.2`, …. -/
def specNode : MsgStruct → String → List AttInfo
  | .mk ty disp fn pn sz cid children, path =>
    (if disp == some "attachment" || disp == some "inline" then
      [attInfoOf ty disp fn pn sz cid path]
    else []) ++ specChildren children (path ++ ".") 1

/-- Modelled from the spec: children of a part with path-prefix `pre`
are numbered `pre1`, `pre2`, … (so top-level parts, with `pre = ""`,
are `1`, `2`, …). -/
def specChildren : List MsgStruct → String → Nat → List AttInfo
  | [], _, _ => []
  | c :: cs, pre, i =>
    specNode c (pre ++ toString i) ++ specChildren cs pre (i + 1)

end

/-- Modelled from the spec: the server-side part identifiers of a whole
message.  For a multipart message the top-level parts are addressed
`1`, `2`, … (the multipart root itself has no part number); a
non-multipart message's single body is part `1`. -/
def specAttachments (root : MsgStruct) : List AttInfo :=
  match root with
  | .mk _ _ _ _ _ _ [] => specNode root "1"
  | .mk _ _ _ _ _ _ children => specChildren children "" 1

/-- A concrete MIME tree: a `multipart/mixed` message whose first
top-level part is a plain-text body and whose second top-level part is
a PDF attachment. -/
def mixedTextPdfRoot : MsgStruct :=
  .mk "multipart/mixed" none none none none none
    [ .mk "text/plain" none none none none none []
    , .mk "application/pdf" (some "attachment") (some "report.pdf") none (some 100) none [] ]

/-! ## Local relational rows (db schema, part_013 `folders`/`messages`)

Row ids (`uuidv4()` in the source) are modelled as `Nat`, handed out by
a fresh-id counter; ISO timestamp strings become `Nat` instants (the
encoding is injective and order-preserving, which is all the claims
use).  `MsgRec` is restricted to the columns the verified claims
inspect — row identity, the `(accountId, folderId, uid)` scoping and the
stored flag set; the remaining envelope columns are written once at
insert and never read or rewritten by any code path the claims cover. -/

/-- A row of the `folders` table (part_013 lines 69–94). -/
structure FolderRec where
  id : Nat
  accountId : Nat
  name : String
  path : String
  delimiter : String
  parentPath : Option String
  specialUse : Option String
  totalMessages : Nat
  unreadMessages : Nat
  uidValidity : Option Nat
  uidNext : Option Nat
  highestModSeq : Option Nat
  isSubscribed : Bool
  isSelectable : Bool
  hasChildren : Bool
  lastSyncAt : Option Nat
deriving DecidableEq, Repr

/-- A row of the `messages` table (part_013 lines 96 ff.), restricted to
the claim-relevant columns; `flagsJson` holds the parsed JSON array. -/
structure MsgRec where
  id : Nat
  accountId : Nat
  folderId : Nat
  uid : Nat
  flagsJson : List String
deriving DecidableEq, Repr

/-! ## Message synchronizer (`ImapSyncService.syncFolder`, part_009 lines 400–536) -/

/-- The mailbox state returned by `client.mailboxOpen` (imapflow):
`uidValidity`/`uidNext` are numbers (`0` is falsy in the JS guards
below, though RFC 3501 requires a nonzero UIDVALIDITY), `highestModseq`
is optional, `existsCount` is the `exists` message count. -/
structure MailboxOpenResult where
  uidValidity : Nat
  uidNext : Nat
  highestModseq : Option Nat
  existsCount : Nat
deriving DecidableEq, Repr

/-- One element yielded by `client.fetch` (uid + flags, the fields the
sync loop branches on). -/
structure FetchedMsg where
  uid : Nat
  flags : List String
deriving DecidableEq, Repr

/-- The outcome of the `for await (const msg of client.fetch(...))` loop
(part_009 lines 462–476): `fetched` are the messages yielded before the
iteration ended, `failed` records whether it ended by throwing.  The
`catch` block only logs, so the rest of `syncFolder` depends only on
`fetched`. -/
structure FetchOutcome where
  fetched : List FetchedMsg
  failed : Bool
deriving DecidableEq, Repr

/-- Part_009 line 426:
`folder.uidValidity && folder.uidValidity !== Number(mailbox.uidValidity)`
(JS truthiness: a stored `0` is falsy). -/
def uidValidityChangedB (folder : FolderRec) (mb : MailboxOpenResult) : Bool :=
  match folder.uidValidity with
  | none => false
  | some v => !(v == 0) && !(v == mb.uidValidity)

/-- The folder-metadata update of part_009 lines 433–441:
`uidValidity: mailbox.uidValidity ? Number(..) : null` (and likewise
`uidNext`), `highestModSeq: mailbox.highestModseq?.toString() || null`
(the string `"0"` is truthy, so this is an `Option` pass-through),
`totalMessages: mailbox.exists`, `lastSyncAt: now`. -/
def applyFolderMeta (folder : FolderRec) (mb : MailboxOpenResult) (now : Nat) : FolderRec :=
  { folder with
    uidValidity := if mb.uidValidity == 0 then none else some mb.uidValidity
    uidNext := if mb.uidNext == 0 then none else some mb.uidNext
    highestModSeq := mb.highestModseq
    totalMessages := mb.existsCount
    lastSyncAt := some now }

/-- The `for (const msg of fetchedMessages)` loop of part_009 lines
481–516, threading `(message table, next fresh row id, newMessages,
updatedMessages)`.  A uid absent from the pre-fetch snapshot
`existingUids` is inserted (`insertMessage`, modelled on its
claim-relevant columns); a present uid whose flag set differs is
updated in place; an equal flag set is left alone. -/
def syncFetchLoop (accountId folderId : Nat) (existingUids : List (Nat × List String)) :
    List FetchedMsg → List MsgRec × Nat × Nat × Nat → List MsgRec × Nat × Nat × Nat
  | [], acc => acc
  | m :: ms, (tbl, nid, nw, up) =>
    match jsMapGet existingUids m.uid with
    | none =>
      syncFetchLoop accountId folderId existingUids ms
        (tbl ++ [{ id := nid, accountId := accountId, folderId := folderId,
                   uid := m.uid, flagsJson := m.flags }], nid + 1, nw + 1, up)
    | some existingFlags =>
      if existingFlags == m.flags then
        syncFetchLoop accountId folderId existingUids ms (tbl, nid, nw, up)
      else
        syncFetchLoop accountId folderId existingUids ms
          (tbl.map (fun r =>
            if r.folderId == folderId && r.uid == m.uid then
              { r with flagsJson := m.flags } else r), nid, nw, up + 1)

/-- Return value and final state of `syncFolder`. -/
structure SyncFolderResult where
  folder : FolderRec
  messages : List MsgRec
  newMessages : Nat
  updatedMessages : Nat
deriving DecidableEq, Repr

/-- `ImapSyncService.syncFolder` (part_009 lines 400–536) for one
folder: delete the folder's messages when UIDVALIDITY changed, persist
the fresh mailbox metadata, snapshot the known uids, reconcile the
fetched message list against the snapshot, then persist the unseen
count from the follow-up `status` call (`getUnreadCount`, whose result
— `status.unseen || 0`, or `0` on error — is the input
`unseenStatus`).  The folder row is passed in directly (the claims all
concern folders that exist; a missing folder throws before any of the
steps modelled here). -/
def syncFolder (accountId : Nat) (folder : FolderRec) (msgs : List MsgRec)
    (mb : MailboxOpenResult) (fetch : FetchOutcome) (unseenStatus : Nat)
    (now : Nat) (idStart : Nat) : SyncFolderResult :=
  let uidValidityChanged := uidValidityChangedB folder mb
  let msgs1 := if uidValidityChanged then
      msgs.filter (fun m => !(m.folderId == folder.id))
    else msgs
  let folder1 := applyFolderMeta folder mb now
  let existingUids :=
    (msgs1.filter (fun m => m.folderId == folder.id)).map (fun m => (m.uid, m.flagsJson))
  let looped :=
    if mb.existsCount > 0 then
      syncFetchLoop accountId folder.id existingUids fetch.fetched (msgs1, idStart, 0, 0)
    else (msgs1, idStart, 0, 0)
  { folder := { folder1 with unreadMessages := unseenStatus }
    messages := looped.1
    newMessages := looped.2.2.1
    updatedMessages := looped.2.2.2 }

/-- Concrete folder row used by the `syncFolder` scenarios: synced
before at `uidValidity = 100` with `uidNext = 5`. -/
def c4Folder : FolderRec :=
  { id := 7, accountId := 1, name := "box", path := "box", delimiter := "/",
    parentPath := none, specialUse := none, totalMessages := 1,
    unreadMessages := 0, uidValidity := some 100, uidNext := some 5,
    highestModSeq := none, isSubscribed := true, isSelectable := true,
    hasChildren := false, lastSyncAt := some 0 }

/-- Server mailbox state for the fetch-failure scenario: same
UIDVALIDITY, but `uidNext` has moved to 9 and 3 messages exist. -/
def c4Mailbox : MailboxOpenResult :=
  { uidValidity := 100, uidNext := 9, highestModseq := none, existsCount := 3 }

/-- A fetch that throws before yielding any message. -/
def c4FetchFail : FetchOutcome := { fetched := [], failed := true }

/-- Folder row for the expunge-diffing scenario (uids 10 and 11 known
locally). -/
def c6Folder : FolderRec :=
  { id := 7, accountId := 1, name := "box", path := "box", delimiter := "/",
    parentPath := none, specialUse := none, totalMessages := 2,
    unreadMessages := 0, uidValidity := some 100, uidNext := some 13,
    highestModSeq := none, isSubscribed := true, isSelectable := true,
    hasChildren := false, lastSyncAt := some 0 }

/-- Local rows for uids 10 and 11 in folder 7. -/
def c6Msgs : List MsgRec :=
  [ { id := 1, accountId := 1, folderId := 7, uid := 10, flagsJson := [] }
  , { id := 2, accountId := 1, folderId := 7, uid := 11, flagsJson := [] } ]

/-- Server state for the expunge scenario: same UIDVALIDITY 100, but
only uid 10 still exists (uid 11 was expunged on the server). -/
def c6Mailbox : MailboxOpenResult :=
  { uidValidity := 100, uidNext := 13, highestModseq := none, existsCount := 1 }

/-- The fetch yields only uid 10. -/
def c6Fetch : FetchOutcome := { fetched := [{ uid := 10, flags := [] }], failed := false }

/-! ## Mutation executor (`EmailService`, part_009 lines 832–1402)

The remote mailbox becomes an explicit `Server` value and every
`imapflow` client call both appends a `NetEvent` to a trace and steps
the server state.  `Server.failPaths` is the fault model for the
partial-failure claims: a remote command against a mailbox whose path
is listed throws (the model places the throw at `mailboxOpen`, the
first remote command of each per-folder group; everything before the
throw is kept, everything after is not executed, exactly as an `await`
rejection propagates out of the loop). -/

/-- A row of the `accounts` table restricted to the two columns the
mutation executor's ownership check reads (part_013 lines 31–33). -/
structure AccountRec where
  id : Nat
  userId : Nat
deriving DecidableEq, Repr

/-- The local relational store as seen by `EmailService`. -/
structure DB where
  accounts : List AccountRec
  folders : List FolderRec
  messages : List MsgRec
deriving DecidableEq, Repr

/-- A message as stored on the IMAP server (uid + flag set). -/
structure ServerMsg where
  uid : Nat
  flags : List String
deriving DecidableEq, Repr

/-- A server-side mailbox. -/
structure ServerMailbox where
  path : String
  msgs : List ServerMsg
deriving DecidableEq, Repr

/-- The remote IMAP server: its mailboxes plus the fault-injection set
`failPaths` (remote commands against these mailboxes throw). -/
structure Server where
  mailboxes : List ServerMailbox
  failPaths : List String
deriving DecidableEq, Repr

/-- The network commands the mutation executor can issue, recorded in
order; an empty trace means no connection was obtained and no IMAP
command was sent. -/
inductive NetEvent where
  | getConnection
  | mailboxOpen (path : String)
  | flagsAdd (path : String) (uids : List Nat) (flags : List String)
  | flagsRemove (path : String) (uids : List Nat) (flags : List String)
  | messageMove (path : String) (uids : List Nat) (targetPath : String)
  | messageDelete (path : String) (uidRange : String)
deriving DecidableEq, Repr

/-- Models `client.messageFlagsAdd(uidRange, flags, {uid:true})` — IMAP
`UID STORE +FLAGS`: the server adds the given flags (as a set) to every
message in the uid list. -/
def serverFlagsAdd (srv : Server) (path : String) (uids : List Nat)
    (fl : List String) : Server :=
  { srv with mailboxes := srv.mailboxes.map (fun mbx =>
      if mbx.path == path then
        { mbx with msgs := mbx.msgs.map (fun m =>
            if uids.contains m.uid then
              { m with flags := jsSetDedup [] (m.flags ++ fl) } else m) }
      else mbx) }

/-- Models `client.messageFlagsRemove(uidRange, flags, {uid:true})` —
IMAP `UID STORE -FLAGS`. -/
def serverFlagsRemove (srv : Server) (path : String) (uids : List Nat)
    (fl : List String) : Server :=
  { srv with mailboxes := srv.mailboxes.map (fun mbx =>
      if mbx.path == path then
        { mbx with msgs := mbx.msgs.map (fun m =>
            if uids.contains m.uid then
              { m with flags := m.flags.filter (fun f => !fl.contains f) } else m) }
      else mbx) }

/-- Largest uid present in a mailbox (for modelling server-assigned
uids on move). -/
def maxUid (msgs : List ServerMsg) : Nat :=
  msgs.foldl (fun a m => max a m.uid) 0

/-- Models `client.messageMove(uidRange, targetPath, {uid:true})` —
IMAP `UID MOVE`: the listed messages leave the source mailbox and
reappear in the destination with fresh server-assigned uids (modelled
as consecutive uids above the destination's current maximum). -/
def serverMove (srv : Server) (path : String) (uids : List Nat)
    (targetPath : String) : Server :=
  let moved : List ServerMsg := match srv.mailboxes.find? (fun b => b.path == path) with
    | some b => b.msgs.filter (fun m => uids.contains m.uid)
    | none => []
  { srv with mailboxes := srv.mailboxes.map (fun mbx =>
      if mbx.path == path then
        { mbx with msgs := mbx.msgs.filter (fun m => !uids.contains m.uid) }
      else if mbx.path == targetPath then
        { mbx with msgs := mbx.msgs ++
            (moved.enum.map (fun p =>
              ({ uid := maxUid mbx.msgs + p.1 + 1, flags := p.2.flags } : ServerMsg))) }
      else mbx) }

/-- Models `client.messageDelete('1:*', {uid:true})` (imapflow): the
command stores `\Deleted` on every message of the given range and
expunges, so with range `1:*` every message of the selected mailbox is
removed from the server. -/
def serverMessageDeleteAll (srv : Server) (path : String) : Server :=
  { srv with mailboxes := srv.mailboxes.map (fun mbx =>
      if mbx.path == path then { mbx with msgs := [] } else mbx) }

/-- `FlagUpdateInput` from the shared package (`emailIds`, optional
`addFlags`/`removeFlags`). -/
structure FlagUpdateInput where
  emailIds : List Nat
  addFlags : Option (List String)
  removeFlags : Option (List String)
deriving DecidableEq, Repr

/-- `MoveEmailsInput` from the shared package. -/
structure MoveEmailsInput where
  emailIds : List Nat
  targetFolderId : Nat
deriving DecidableEq, Repr

/-- Outcome of a mutation call: final local store, final server state,
network trace, and whether the call returned normally (`ok = false`
models a thrown error). -/
structure MutResult where
  db : DB
  srv : Server
  trace : List NetEvent
  ok : Bool
deriving DecidableEq, Repr

/-- The ownership check opening every `EmailService` mutation
(`db.query.accounts.findFirst({where: and(eq(accounts.id, accountId),
eq(accounts.userId, userId))})`). -/
def accountLookup (db : DB) (accountId userId : Nat) : Option AccountRec :=
  db.accounts.find? (fun a => a.id == accountId && a.userId == userId)

/-- The `byFolder` JS `Map` of part_009 lines 1049–1054 / 1141–1146:
keys in order of first occurrence, each group holding the rows with
that `folderId` in row order. -/
def groupByFolder (rows : List MsgRec) : List (Nat × List MsgRec) :=
  (jsSetDedupNat [] (rows.map (fun m => m.folderId))).map
    (fun fid => (fid, rows.filter (fun m => m.folderId == fid)))

/-- The local per-row flag computation of part_009 lines 1078–1091:
`if (input.addFlags) currentFlags = [...new Set([...currentFlags,
...input.addFlags])]` then `if (input.removeFlags) currentFlags =
currentFlags.filter(f => !input.removeFlags.includes(f))`.  (Note the
local branches test presence, not non-emptiness.) -/
def applyFlagInput (addFlags removeFlags : Option (List String))
    (currentFlags : List String) : List String :=
  let cf1 := match addFlags with
    | some af => jsSetDedup [] (currentFlags ++ af)
    | none => currentFlags
  match removeFlags with
  | some rf => cf1.filter (fun f => !rf.contains f)
  | none => cf1

/-- The remote half of one `updateFlags` folder group (part_009 lines
1069–1075): `client.messageFlagsAdd` when `input.addFlags?.length`,
then `client.messageFlagsRemove` when `input.removeFlags?.length`. -/
def issueFlagCommands (input : FlagUpdateInput) (srv : Server) (path : String)
    (uids : List Nat) (tr1 : List NetEvent) : Server × List NetEvent :=
  let step1 : Server × List NetEvent :=
    match input.addFlags with
    | some af =>
      if af.length > 0 then
        (serverFlagsAdd srv path uids af, tr1 ++ [NetEvent.flagsAdd path uids af])
      else (srv, tr1)
    | none => (srv, tr1)
  match input.removeFlags with
  | some rf =>
    if rf.length > 0 then
      (serverFlagsRemove step1.1 path uids rf,
       step1.2 ++ [NetEvent.flagsRemove path uids rf])
    else step1
  | none => step1

/-- The `// Update local database` loop of part_009 lines 1078–1092:
each row of the group gets `applyFlagInput` of its snapshot flags
written back (`where id = msg.id`). -/
def applyFlagsLocally (input : FlagUpdateInput) (folderMessages : List MsgRec)
    (db : DB) : DB :=
  folderMessages.foldl (fun (d : DB) msg =>
    let cf := applyFlagInput input.addFlags input.removeFlags msg.flagsJson
    { d with messages := d.messages.map (fun r =>
        if r.id == msg.id then { r with flagsJson := cf } else r) }) db

/-- The per-folder loop of `updateFlags` (part_009 lines 1057–1093): a
missing folder row is skipped (`if (!folder) continue`); otherwise the
mailbox is opened (a fail-path throws here and the error propagates,
ending the batch with the earlier groups' effects kept), the flag
commands are issued, and the same add/remove is mirrored onto each
local row of the group. -/
def updateFlagsGroups (input : FlagUpdateInput) :
    List (Nat × List MsgRec) → DB → Server → List NetEvent → MutResult
  | [], db, srv, tr => ⟨db, srv, tr, true⟩
  | (folderId, folderMessages) :: rest, db, srv, tr =>
    match db.folders.find? (fun f => f.id == folderId) with
    | none => updateFlagsGroups input rest db srv tr
    | some folder =>
      let tr1 := tr ++ [NetEvent.mailboxOpen folder.path]
      if srv.failPaths.contains folder.path then ⟨db, srv, tr1, false⟩
      else
        let uids := folderMessages.map (fun m => m.uid)
        let step2 := issueFlagCommands input srv folder.path uids tr1
        updateFlagsGroups input rest
          (applyFlagsLocally input folderMessages db) step2.1 step2.2

/-- `EmailService.updateFlags` (part_009 lines 1018–1094): verify the
account belongs to the user (rejected with an empty trace — i.e. before
any network I/O — otherwise), obtain a connection, load the requested
rows scoped to the account, group them by folder and process each
group. -/
def updateFlags (userId accountId : Nat) (input : FlagUpdateInput)
    (db : DB) (srv : Server) : MutResult :=
  match accountLookup db accountId userId with
  | none => ⟨db, srv, [], false⟩
  | some _ =>
    let messageRows := db.messages.filter (fun m =>
      m.accountId == accountId && input.emailIds.contains m.id)
    updateFlagsGroups input (groupByFolder messageRows) db srv [NetEvent.getConnection]

/-- The per-source-folder loop of `moveMessages` (part_009 lines
1149–1167): open the source folder, issue the move, then delete the
group's local rows. -/
def moveMessagesGroups (targetFolder : FolderRec) :
    List (Nat × List MsgRec) → DB → Server → List NetEvent → MutResult
  | [], db, srv, tr => ⟨db, srv, tr, true⟩
  | (folderId, folderMessages) :: rest, db, srv, tr =>
    match db.folders.find? (fun f => f.id == folderId) with
    | none => moveMessagesGroups targetFolder rest db srv tr
    | some sourceFolder =>
      let tr1 := tr ++ [NetEvent.mailboxOpen sourceFolder.path]
      if srv.failPaths.contains sourceFolder.path then ⟨db, srv, tr1, false⟩
      else
        let uids := folderMessages.map (fun m => m.uid)
        let srv1 := serverMove srv sourceFolder.path uids targetFolder.path
        let tr2 := tr1 ++ [NetEvent.messageMove sourceFolder.path uids targetFolder.path]
        let ids := folderMessages.map (fun m => m.id)
        let db1 := { db with messages := db.messages.filter (fun r => !ids.contains r.id) }
        moveMessagesGroups targetFolder rest db1 srv1 tr2

/-- `EmailService.moveMessages` (part_009 lines 1099–1171): verify
account ownership, then that the target folder belongs to the account —
both rejected with an empty trace — then obtain a connection, group the
requested rows by source folder and process each group. -/
def moveMessages (userId accountId : Nat) (input : MoveEmailsInput)
    (db : DB) (srv : Server) : MutResult :=
  match accountLookup db accountId userId with
  | none => ⟨db, srv, [], false⟩
  | some _ =>
    match db.folders.find? (fun f =>
        f.id == input.targetFolderId && f.accountId == accountId) with
    | none => ⟨db, srv, [], false⟩
    | some targetFolder =>
      let messageRows := db.messages.filter (fun m =>
        m.accountId == accountId && input.emailIds.contains m.id)
      moveMessagesGroups targetFolder (groupByFolder messageRows) db srv
        [NetEvent.getConnection]

/-- The expunge loop of the permanent-delete branch (part_009 lines
1213–1222): for each affected folder id, look the folder up (a missing
row is skipped), open the mailbox and issue
`client.messageDelete('1:*', {uid:true})`. -/
def expungeFolders : List Nat → DB → Server → List NetEvent →
    Server × List NetEvent × Bool
  | [], _, srv, tr => (srv, tr, true)
  | folderId :: rest, db, srv, tr =>
    match db.folders.find? (fun f => f.id == folderId) with
    | none => expungeFolders rest db srv tr
    | some folder =>
      let tr1 := tr ++ [NetEvent.mailboxOpen folder.path]
      if srv.failPaths.contains folder.path then (srv, tr1, false)
      else
        expungeFolders rest db (serverMessageDeleteAll srv folder.path)
          (tr1 ++ [NetEvent.messageDelete folder.path "1:*"])

/-- The `permanent = true` branch of `EmailService.deleteMessages`
(part_009 lines 1198–1225): add `\Deleted` to the requested messages
via `updateFlags` (whose own failures propagate), re-query the rows by
id (this query is *not* scoped to the account in the source), collect
the distinct affected folder ids, obtain a connection again, run the
expunge loop, then delete exactly the requested rows locally. -/
def deleteMessagesPermanentBranch (userId accountId : Nat)
    (emailIds : List Nat) (db : DB) (srv : Server) : MutResult :=
  let r1 := updateFlags userId accountId ⟨emailIds, some ["\\Deleted"], none⟩ db srv
  if !r1.ok then ⟨r1.db, r1.srv, r1.trace, false⟩
  else
    let messageRows := r1.db.messages.filter (fun m => emailIds.contains m.id)
    let folderIds := jsSetDedupNat [] (messageRows.map (fun m => m.folderId))
    let ex := expungeFolders folderIds r1.db r1.srv
      (r1.trace ++ [NetEvent.getConnection])
    if !ex.2.2 then ⟨r1.db, ex.1, ex.2.1, false⟩
    else
      ⟨{ r1.db with messages :=
          r1.db.messages.filter (fun r => !emailIds.contains r.id) },
        ex.1, ex.2.1, true⟩

/-- `EmailService.deleteMessages` (part_009 lines 1176–1245): verify
account ownership (rejected with an empty trace otherwise); if
`permanent`, run the permanent branch; otherwise move to the account's
trash folder when one exists, and otherwise recurse with
`permanent = true` (modelled by re-running the ownership check and then
the permanent branch, exactly what the recursive call does). -/
def deleteMessages (userId accountId : Nat) (emailIds : List Nat)
    (permanent : Bool) (db : DB) (srv : Server) : MutResult :=
  match accountLookup db accountId userId with
  | none => ⟨db, srv, [], false⟩
  | some _ =>
    if permanent then deleteMessagesPermanentBranch userId accountId emailIds db srv
    else
      match db.folders.find? (fun f =>
          f.accountId == accountId && f.specialUse == some "trash") with
      | some trashFolder =>
        moveMessages userId accountId ⟨emailIds, trashFolder.id⟩ db srv
      | none =>
        match accountLookup db accountId userId with
        | none => ⟨db, srv, [], false⟩
        | some _ => deleteMessagesPermanentBranch userId accountId emailIds db srv

/-! ## Folder synchronizer (`ImapSyncService.syncFolders`, part_009 lines 320–395) -/

/-- One entry of the server mailbox list returned by `client.list()`
(imapflow `ListResponse`), restricted to the fields `syncFolders`
reads.  The `flags` `Set<string>` becomes a list queried with
`contains` (an absent set behaves like the empty one under the
source's optional-chaining). -/
structure MailboxEntry where
  path : String
  name : String
  delimiter : Option String
  parentPath : Option String
  specialUse : Option String
  flags : List String
  subscribed : Option Bool
deriving DecidableEq, Repr

/-- `ImapSyncService.detectSpecialUse` (part_009 lines 805–820): prefer
the server-declared special-use attribute (lower-cased, first backslash
stripped — JS `replace('\\', '')` replaces one occurrence), else
case-insensitive name heuristics on the mailbox path. -/
def detectSpecialUse (mailbox : MailboxEntry) : Option String :=
  match mailbox.specialUse with
  | some su => some (jsStripFirstBackslash (jsToLower su))
  | none =>
    let name := jsToLower mailbox.path
    if name == "inbox" then some "inbox"
    else if strIncludes name "sent" then some "sent"
    else if strIncludes name "draft" then some "drafts"
    else if strIncludes name "trash" || strIncludes name "deleted" then some "trash"
    else if strIncludes name "spam" || strIncludes name "junk" then some "spam"
    else if strIncludes name "archive" then some "archive"
    else none

/-- `mailbox.delimiter || '/'` (JS `||`: the empty string also falls
through). -/
def mbDelimiter (m : MailboxEntry) : String :=
  match m.delimiter with
  | some d => if d == "" then "/" else d
  | none => "/"

/-- `mailbox.parentPath || null`. -/
def mbParentPath (m : MailboxEntry) : Option String :=
  match m.parentPath with
  | some p => if p == "" then none else some p
  | none => none

/-- `mailbox.subscribed ?? true`. -/
def mbIsSubscribed (m : MailboxEntry) : Bool := m.subscribed.getD true

/-- `!mailbox.flags?.has('\\Noselect')`. -/
def mbIsSelectable (m : MailboxEntry) : Bool := !m.flags.contains "\\Noselect"

/-- `mailbox.flags?.has('\\HasChildren') ?? false`. -/
def mbHasChildren (m : MailboxEntry) : Bool := m.flags.contains "\\HasChildren"

/-- The `folderData` record of part_009 lines 345–362: a freshly
inserted folder row with zeroed counters and null uid state. -/
def folderDataOf (accountId : Nat) (m : MailboxEntry) (now : Nat) (nid : Nat) : FolderRec :=
  { id := nid, accountId := accountId, name := m.name, path := m.path,
    delimiter := mbDelimiter m, parentPath := mbParentPath m,
    specialUse := detectSpecialUse m, totalMessages := 0, unreadMessages := 0,
    uidValidity := none, uidNext := none, highestModSeq := none,
    isSubscribed := mbIsSubscribed m, isSelectable := mbIsSelectable m,
    hasChildren := mbHasChildren m, lastSyncAt := some now }

/-- The update branch of part_009 lines 366–379: rewrite the mutable
attributes (name, parentPath, specialUse, isSubscribed, isSelectable,
hasChildren, lastSyncAt) of an existing folder row; counters, uid state
and delimiter are left alone. -/
def updateFolderRow (m : MailboxEntry) (now : Nat) (r : FolderRec) : FolderRec :=
  { r with
    name := m.name
    parentPath := mbParentPath m
    specialUse := detectSpecialUse m
    isSubscribed := mbIsSubscribed m
    isSelectable := mbIsSelectable m
    hasChildren := mbHasChildren m
    lastSyncAt := some now }

/-- The `for (const mailbox of mailboxes)` loop of `syncFolders`
(part_009 lines 340–384): `existingPaths` is the set of the account's
folder paths captured *before* the loop; a seen path is updated
(`where accountId = … and path = …`), an unseen one inserted with a
fresh row id. -/
def syncFoldersLoop (accountId : Nat) (existingPaths : List String) (now : Nat) :
    List MailboxEntry → List FolderRec → Nat → List FolderRec
  | [], tbl, _ => tbl
  | m :: ms, tbl, nid =>
    if existingPaths.contains m.path then
      syncFoldersLoop accountId existingPaths now ms
        (tbl.map (fun r =>
          if r.accountId == accountId && r.path == m.path then
            updateFolderRow m now r
          else r)) nid
    else
      syncFoldersLoop accountId existingPaths now ms
        (tbl ++ [folderDataOf accountId m now nid]) (nid + 1)

/-- `ImapSyncService.syncFolders` (part_009 lines 320–395): reconcile
the server's mailbox list against the folder table — update or insert
every listed mailbox, then delete the account's folders whose path the
server no longer lists (the `if (deletedPaths.length > 0)` guard is
kept from the source). -/
def syncFolders (accountId : Nat) (tbl : List FolderRec)
    (mailboxes : List MailboxEntry) (now : Nat) (idStart : Nat) : List FolderRec :=
  let existingPaths := (tbl.filter (fun f => f.accountId == accountId)).map (fun f => f.path)
  let tbl1 := syncFoldersLoop accountId existingPaths now mailboxes tbl idStart
  let seenPaths := mailboxes.map (fun m => m.path)
  let deletedPaths := existingPaths.filter (fun p => !seenPaths.contains p)
  if deletedPaths.length > 0 then
    tbl1.filter (fun r => !(r.accountId == accountId && deletedPaths.contains r.path))
  else tbl1

/-- A folder row's mutable attributes agree with a mailbox-list entry:
re-running the update branch against `m` would change nothing but
`lastSyncAt`. -/
def agreesWith (m : MailboxEntry) (r : FolderRec) : Prop :=
  r.name = m.name ∧ r.parentPath = mbParentPath m ∧
  r.specialUse = detectSpecialUse m ∧ r.isSubscribed = mbIsSubscribed m ∧
  r.isSelectable = mbIsSelectable m ∧ r.hasChildren = mbHasChildren m

/-- The single server mailbox of the repeated-`syncFolders` scenario. -/
def c7Mailbox : MailboxEntry :=
  { path := "box", name := "box", delimiter := some "/", parentPath := none,
    specialUse := none, flags := [], subscribed := some true }

/-- Whether one `updateFlags` folder group runs without a remote throw:
its folder row is missing (the group is skipped) or its mailbox is not
a fail path. -/
def groupOkB (db : DB) (srv : Server) (g : Nat × List MsgRec) : Bool :=
  match db.folders.find? (fun f => f.id == g.1) with
  | none => true
  | some folder => !srv.failPaths.contains folder.path

/-- A folder row of account 1 at path `"box"` (folder id 1), used by the
mutation-executor scenarios. -/
def c1Folder : FolderRec :=
  { id := 1, accountId := 1, name := "box", path := "box", delimiter := "/",
    parentPath := none, specialUse := none, totalMessages := 2,
    unreadMessages := 0, uidValidity := some 100, uidNext := some 3,
    highestModSeq := none, isSubscribed := true, isSelectable := true,
    hasChildren := false, lastSyncAt := some 0 }

/-- Local store for the permanent-delete scenario: user 1 owns account
1; folder 1 holds rows for uids 1 (row id 1, the one to delete) and 2
(row id 2, not requested). -/
def c1DB : DB :=
  { accounts := [⟨1, 1⟩], folders := [c1Folder],
    messages := [⟨1, 1, 1, 1, []⟩, ⟨2, 1, 1, 2, []⟩] }

/-- Server for the permanent-delete scenario: mailbox `"box"` holds
uids 1 and 2; no fault injection. -/
def c1Server : Server :=
  { mailboxes := [⟨"box", [⟨1, []⟩, ⟨2, []⟩]⟩], failPaths := [] }

/-- Local store for the flag round-trip scenario: one message (row id
1, uid 5) whose stored flag set already contains `\Flagged`. -/
def c2DB : DB :=
  { accounts := [⟨1, 1⟩], folders := [c1Folder],
    messages := [⟨1, 1, 1, 5, ["\\Flagged"]⟩] }

/-- Server for the flag round-trip scenario. -/
def c2Server : Server :=
  { mailboxes := [⟨"box", [⟨5, ["\\Flagged"]⟩]⟩], failPaths := [] }

/-- First `updateFlags` call of the round-trip: add `\Flagged`. -/
def c2AfterAdd : MutResult :=
  updateFlags 1 1 ⟨[1], some ["\\Flagged"], none⟩ c2DB c2Server

/-- Second `updateFlags` call of the round-trip: remove `\Flagged`. -/
def c2AfterRemove : MutResult :=
  updateFlags 1 1 ⟨[1], none, some ["\\Flagged"]⟩ c2AfterAdd.db c2AfterAdd.srv

/-- Folder A (id 1, path `"A"`) of the two-folder batch scenario. -/
def c5FolderA : FolderRec := { c1Folder with id := 1, name := "A", path := "A" }

/-- Folder B (id 2, path `"B"`) of the two-folder batch scenario. -/
def c5FolderB : FolderRec := { c1Folder with id := 2, name := "B", path := "B" }

/-- Local store for the two-folder batch: row 1 lives in folder A, row
2 in folder B. -/
def c5DB : DB :=
  { accounts := [⟨1, 1⟩], folders := [c5FolderA, c5FolderB],
    messages := [⟨1, 1, 1, 1, []⟩, ⟨2, 1, 2, 1, []⟩] }

/-- Server for the two-folder batch: folder A's remote commands fail. -/
def c5Server : Server :=
  { mailboxes := [⟨"A", [⟨1, []⟩]⟩, ⟨"B", [⟨1, []⟩]⟩], failPaths := ["A"] }

/-- The two-folder `updateFlags` batch with folder A (grouped first)
failing remotely. -/
def c5Result : MutResult :=
  updateFlags 1 1 ⟨[1, 2], some ["\\Seen"], none⟩ c5DB c5Server

/-! ## Theorems -/

/-- C10 (confirmed): `handleNewMail` emits a `newMail` event exactly when
the `exists` notification's `count` strictly exceeds `prevCount`, and
the carried value is the difference `count - prevCount`; moreover
whenever `prevCount > 0` the carried value is not the mailbox total
`count`. -/
theorem handleNewMail_emits_diff (path : String) (count prevCount : Nat) :
    handleNewMail ⟨path, count, prevCount⟩ =
      (if prevCount < count then some (path, (count : Int) - (prevCount : Int)) else none)
    ∧ (0 < prevCount → prevCount < count →
        handleNewMail ⟨path, count, prevCount⟩ ≠ some (path, (count : Int))) := by
  constructor
  · simp only [handleNewMail, sub_pos, Nat.cast_lt]
  · intro hp hc
    simp only [handleNewMail, sub_pos, Nat.cast_lt, if_pos hc]
    intro h
    have h2 : (count : Int) - (prevCount : Int) = (count : Int) :=
      congrArg Prod.snd (Option.some.inj h)
    omega

/-- C9 (code bug): on a `multipart/mixed` message whose second top-level
part is an attachment, `findAttachments` records `partId = "1.2"`, while
IMAP's part-addressing convention — the identifier the server expects
when the part is re-fetched — addresses that part as `"2"`.  The root of
the tree is given path `"1"` by the code, so no attachment of a
multipart message can ever receive its server-side identifier. -/
theorem findAttachments_partId_mismatch :
    (findAttachments (some mixedTextPdfRoot)).map (fun a => a.partId) = ["1.2"]
    ∧ (specAttachments mixedTextPdfRoot).map (fun a => a.partId) = ["2"]
    ∧ (findAttachments (some mixedTextPdfRoot)).map (fun a => a.partId)
        ≠ (specAttachments mixedTextPdfRoot).map (fun a => a.partId) := by
  refine ⟨by decide, by decide, by decide⟩

/-- Helper: when the pre-fetch uid snapshot is empty, every row produced
by `syncFetchLoop` is either an original row or a freshly inserted one
whose id is at least the counter's start value. -/
theorem syncFetchLoop_mem_of_empty (accountId folderId : Nat) :
    ∀ (fs : List FetchedMsg) (tbl : List MsgRec) (nid nw up : Nat),
      ∀ r ∈ (syncFetchLoop accountId folderId [] fs (tbl, nid, nw, up)).1,
        r ∈ tbl ∨ nid ≤ r.id := by
  intro fs
  induction fs with
  | nil => intro tbl nid nw up r hr; exact Or.inl hr
  | cons m ms ih =>
    intro tbl nid nw up r hr
    have hget : jsMapGet [] m.uid = none := rfl
    rw [syncFetchLoop, hget] at hr
    rcases ih _ _ _ _ r hr with h | h
    · rcases List.mem_append.mp h with h' | h'
      · exact Or.inl h'
      · right
        rcases List.mem_singleton.mp h' with rfl
        exact le_refl _
    · exact Or.inr (Nat.le_of_succ_le h)

/-- C3 (confirmed): when `syncFolder` observes a `uidValidity` different
from the folder's stored (non-null, hence — as every stored value and
every RFC 3501 value is — nonzero) `uidValidity`, it deletes every prior
message row of that folder and persists the newly observed value.
`hfresh` states that the fresh-id counter is ahead of all existing row
ids, the model of `uuidv4()` never colliding. -/
theorem syncFolder_uidValidity_invalidation
    (accountId : Nat) (folder : FolderRec) (msgs : List MsgRec)
    (mb : MailboxOpenResult) (fetch : FetchOutcome) (unseenStatus now idStart : Nat) (v : Nat)
    (hstored : folder.uidValidity = some v) (hv0 : v ≠ 0)
    (hdiff : v ≠ mb.uidValidity) (hobs : mb.uidValidity ≠ 0)
    (hfresh : ∀ m ∈ msgs, m.id < idStart) :
    (syncFolder accountId folder msgs mb fetch unseenStatus now idStart).folder.uidValidity
        = some mb.uidValidity
    ∧ ∀ m ∈ msgs, m.folderId = folder.id →
        m ∉ (syncFolder accountId folder msgs mb fetch unseenStatus now idStart).messages := by
  have hchanged : uidValidityChangedB folder mb = true := by
    rw [uidValidityChangedB, hstored]
    simp only [Bool.and_eq_true, Bool.not_eq_true', beq_eq_false_iff_ne, ne_eq]
    exact ⟨hv0, hdiff⟩
  have hfilter : (msgs.filter (fun m => !(m.folderId == folder.id))).filter
      (fun m => m.folderId == folder.id) = [] := by
    rw [List.filter_filter]
    apply List.filter_eq_nil_iff.mpr
    intro a _
    simp
  constructor
  · simp only [syncFolder, hchanged, if_true, applyFolderMeta]
    simp [hobs]
  · intro m hm hfid
    have hnotin1 : m ∉ msgs.filter (fun m => !(m.folderId == folder.id)) := by
      intro hc
      have := List.of_mem_filter hc
      simp [hfid] at this
    simp only [syncFolder, hchanged, if_true, hfilter]
    intro hc
    by_cases hex : mb.existsCount > 0
    · rw [if_pos hex] at hc
      simp only [List.map_nil] at hc
      rcases syncFetchLoop_mem_of_empty accountId folder.id fetch.fetched _ idStart 0 0 m hc with h | h
      · exact hnotin1 h
      · exact absurd (hfresh m hm) (by omega)
    · rw [if_neg hex] at hc
      exact hnotin1 hc

/-- Witness for C3 at a concrete input: folder 7 stored
`uidValidity = 100`, server now reports 200; both prior rows (uids
10, 11) are gone and 200 is persisted. -/
theorem syncFolder_uidValidity_invalidation_witness :
    (syncFolder 1 c4Folder c6Msgs
        { uidValidity := 200, uidNext := 15, highestModseq := none, existsCount := 1 }
        c6Fetch 0 20 3).folder.uidValidity = some 200
    ∧ ∀ m ∈ c6Msgs, m.folderId = c4Folder.id →
        m ∉ (syncFolder 1 c4Folder c6Msgs
          { uidValidity := 200, uidNext := 15, highestModseq := none, existsCount := 1 }
          c6Fetch 0 20 3).messages :=
  syncFolder_uidValidity_invalidation 1 c4Folder c6Msgs
    { uidValidity := 200, uidNext := 15, highestModseq := none, existsCount := 1 }
    c6Fetch 0 20 3 100 rfl (by decide) (by decide) (by decide) (by decide)

/-- C4 counterexample: a run of `syncFolder` whose message fetch fails
does *not* leave the folder's prior stored state untouched — at this
concrete input the folder row is mutated (its `uidNext` moves from 5 to
9, `totalMessages` to 3, `lastSyncAt` to the new instant) even though
the fetch threw before yielding anything. -/
theorem syncFolder_fetch_error_mutates_state :
    (syncFolder 1 c4Folder [] c4Mailbox c4FetchFail 0 11 5).folder ≠ c4Folder := by decide

/-- C4 (amended): an error fetching the message list does not abort the
folder's sync — the exception is caught, so siblings and the caller are
unaffected and the call completes normally — but the prior state is not
left untouched: the folder row still receives the fresh mailbox
metadata and unseen count.  With an unchanged UIDVALIDITY and a fetch
that fails before yielding anything, the message rows (only) are
unchanged and the call reports 0 new / 0 updated messages. -/
theorem syncFolder_fetch_error_continues
    (accountId : Nat) (folder : FolderRec) (msgs : List MsgRec)
    (mb : MailboxOpenResult) (fetch : FetchOutcome) (unseenStatus now idStart : Nat)
    (hfail : fetch.failed = true) (hnone : fetch.fetched = [])
    (hsame : uidValidityChangedB folder mb = false) :
    syncFolder accountId folder msgs mb fetch unseenStatus now idStart =
      { folder := { applyFolderMeta folder mb now with unreadMessages := unseenStatus }
        messages := msgs
        newMessages := 0
        updatedMessages := 0 } := by
  clear hfail
  simp only [syncFolder, hsame, hnone, if_false, Bool.false_eq_true]
  split <;> rfl

/-- Witness for C4 (amended) at the concrete fetch-failure input. -/
theorem syncFolder_fetch_error_continues_witness :
    syncFolder 1 c4Folder [] c4Mailbox c4FetchFail 0 11 5 =
      { folder := { applyFolderMeta c4Folder c4Mailbox 11 with unreadMessages := 0 }
        messages := []
        newMessages := 0
        updatedMessages := 0 } :=
  syncFolder_fetch_error_continues 1 c4Folder [] c4Mailbox c4FetchFail 0 11 5
    rfl rfl (by decide)

/-- C6 (code bug): with an unchanged UIDVALIDITY, a uid that the server
no longer reports (uid 11 here, while the server's fetch yields only
uid 10) is *not* deleted locally — `syncFolder` has no expunge-diffing
path, so the stale row survives the run, contradicting the claim (and
the spec's SHOULD). -/
theorem syncFolder_keeps_vanished_uid :
    ({ id := 2, accountId := 1, folderId := 7, uid := 11, flagsJson := [] } : MsgRec)
      ∈ (syncFolder 1 c6Folder c6Msgs c6Mailbox c6Fetch 0 20 3).messages := by decide

/-- Helper: issuing the remote flag commands never changes the server's
fault-injection set. -/
theorem issueFlagCommands_failPaths (input : FlagUpdateInput) (srv : Server)
    (path : String) (uids : List Nat) (tr1 : List NetEvent) :
    (issueFlagCommands input srv path uids tr1).1.failPaths = srv.failPaths := by
  unfold issueFlagCommands
  rcases input.addFlags with _ | af <;> rcases input.removeFlags with _ | rf <;>
    simp only [] <;> first
      | rfl
      | (split <;> first | rfl | (split <;> rfl))

/-- Helper: the local flag mirror only rewrites message rows, never the
folder table. -/
theorem applyFlagsLocally_folders (input : FlagUpdateInput) :
    ∀ (g : List MsgRec) (db : DB), (applyFlagsLocally input g db).folders = db.folders := by
  intro g
  induction g with
  | nil => intro db; rfl
  | cons m ms ih =>
    intro db
    have hstep : applyFlagsLocally input (m :: ms) db =
        applyFlagsLocally input ms
          { db with messages := db.messages.map (fun r =>
              if r.id == m.id then
                { r with flagsJson := applyFlagInput input.addFlags input.removeFlags m.flagsJson }
              else r) } := rfl
    rw [hstep]
    exact ih _

/-- Helper: `groupOkB` only reads the folder table and the fault set. -/
theorem groupOkB_congr (db db' : DB) (srv srv' : Server) (g : Nat × List MsgRec)
    (hf : db'.folders = db.folders) (hp : srv'.failPaths = srv.failPaths) :
    groupOkB db' srv' g = groupOkB db srv g := by
  unfold groupOkB
  rw [hf, hp]

/-- C5 (amended): when a folder group's remote command fails mid-batch,
`updateFlags` aborts there — the groups processed *before* the failure
keep their committed local and remote changes, while the failing group
and every later group are left untouched (their remote commands never
execute and their local rows never change), and the call ends in
error.  The batch state after the failure is exactly the state after
the successful prefix, plus the failing group's mailbox-open attempt in
the trace. -/
theorem updateFlagsGroups_abort_after_failure (input : FlagUpdateInput) :
    ∀ (gs₁ : List (Nat × List MsgRec)) (gs₂ : List (Nat × List MsgRec))
      (fid : Nat) (grp : List MsgRec) (db : DB) (srv : Server) (tr : List NetEvent)
      (folder : FolderRec),
      (∀ g ∈ gs₁, groupOkB db srv g = true) →
      db.folders.find? (fun f => f.id == fid) = some folder →
      srv.failPaths.contains folder.path = true →
      updateFlagsGroups input (gs₁ ++ (fid, grp) :: gs₂) db srv tr =
        { db := (updateFlagsGroups input gs₁ db srv tr).db
          srv := (updateFlagsGroups input gs₁ db srv tr).srv
          trace := (updateFlagsGroups input gs₁ db srv tr).trace
                     ++ [NetEvent.mailboxOpen folder.path]
          ok := false } := by
  intro gs₁
  induction gs₁ with
  | nil =>
    intro gs₂ fid grp db srv tr folder _ hfind hfail
    simp only [List.nil_append, updateFlagsGroups, hfind, hfail, if_true]
  | cons g gs ih =>
    intro gs₂ fid grp db srv tr folder hok hfind hfail
    obtain ⟨gid, ggrp⟩ := g
    have hokg := hok _ (List.mem_cons_self _ _)
    rw [groupOkB] at hokg
    rcases hd : db.folders.find? (fun f => f.id == gid) with _ | f'
    · rw [hd] at hokg
      simp only [List.cons_append, updateFlagsGroups, hd]
      exact ih gs₂ fid grp db srv tr folder
        (fun g hg => hok g (List.mem_cons_of_mem _ hg)) hfind hfail
    · rw [hd] at hokg
      simp only [Bool.not_eq_true'] at hokg
      simp only [List.cons_append, updateFlagsGroups, hd, hokg, Bool.false_eq_true, if_false]
      have hfold : (applyFlagsLocally input ggrp db).folders = db.folders :=
        applyFlagsLocally_folders input ggrp db
      have hfp : (issueFlagCommands input srv f'.path (ggrp.map (fun m => m.uid))
          (tr ++ [NetEvent.mailboxOpen f'.path])).1.failPaths = srv.failPaths :=
        issueFlagCommands_failPaths _ _ _ _ _
      apply ih
      · intro g hg
        rw [groupOkB_congr db _ srv _ g hfold hfp]
        exact hok g (List.mem_cons_of_mem _ hg)
      · rw [hfold]; exact hfind
      · rw [hfp]; exact hfail

/-- Witness for C5 (amended): folder B's group (id 2) is processed
first and commits; folder A's group (id 1) fails at open, ending the
batch in error with only A's open attempt appended. -/
theorem updateFlagsGroups_abort_after_failure_witness :
    updateFlagsGroups ⟨[1, 2], some ["\\Seen"], none⟩
        ([(2, [⟨2, 1, 2, 1, []⟩])] ++ (1, [⟨1, 1, 1, 1, []⟩]) :: [])
        c5DB c5Server [NetEvent.getConnection] =
      { db := (updateFlagsGroups ⟨[1, 2], some ["\\Seen"], none⟩
                 [(2, [⟨2, 1, 2, 1, []⟩])] c5DB c5Server [NetEvent.getConnection]).db
        srv := (updateFlagsGroups ⟨[1, 2], some ["\\Seen"], none⟩
                 [(2, [⟨2, 1, 2, 1, []⟩])] c5DB c5Server [NetEvent.getConnection]).srv
        trace := (updateFlagsGroups ⟨[1, 2], some ["\\Seen"], none⟩
                 [(2, [⟨2, 1, 2, 1, []⟩])] c5DB c5Server [NetEvent.getConnection]).trace
                   ++ [NetEvent.mailboxOpen c5FolderA.path]
        ok := false } :=
  updateFlagsGroups_abort_after_failure ⟨[1, 2], some ["\\Seen"], none⟩
    [(2, [⟨2, 1, 2, 1, []⟩])] [] 1 [⟨1, 1, 1, 1, []⟩] c5DB c5Server
    [NetEvent.getConnection] c5FolderA (by decide) (by decide) (by decide)

/-- C5 counterexample: in the two-folder batch where folder A's remote
command fails and A's group is processed first, folder B's remote
command never executes (the trace stops at A's open) and B's local rows
do not commit (the whole message table is unchanged), refuting "folder
B's command still executes and its local changes commit". -/
theorem updateFlags_partial_batch_counterexample :
    c5Result.ok = false
    ∧ c5Result.db.messages = c5DB.messages
    ∧ c5Result.trace = [NetEvent.getConnection, NetEvent.mailboxOpen "A"] :=
  ⟨by decide, by decide, by decide⟩

/-- Helper: `jsSetDedup` leaves a duplicate-free list disjoint from
`seen` unchanged. -/
theorem jsSetDedup_eq_self :
    ∀ (l seen : List String), l.Nodup → (∀ x ∈ l, seen.contains x = false) →
      jsSetDedup seen l = l := by
  intro l
  induction l with
  | nil => intro seen _ _; rfl
  | cons x xs ih =>
    intro seen hnd hsn
    rw [jsSetDedup, hsn x (List.mem_cons_self _ _), if_neg (by simp)]
    congr 1
    apply ih _ (List.Nodup.of_cons hnd)
    intro y hy
    have hne : y ≠ x := by
      intro h
      exact (List.nodup_cons.mp hnd).1 (h ▸ hy)
    have hyx : (y == x) = false := beq_eq_false_iff_ne.mpr hne
    rw [List.contains_cons, hyx, hsn y (List.mem_cons_of_mem _ hy)]
    rfl

/-- C2 (amended): the add-`\Flagged`-then-remove-`\Flagged` round trip
restores a message's stored flag set for every starting flag set that
does not already contain `\Flagged` (stored flag lists are
duplicate-free).  `applyFlagInput` is exactly the per-row stored-flag
computation of `updateFlags` (part_009 lines 1078–1091), applied once
per call. -/
theorem applyFlagInput_flag_roundtrip (flags : List String)
    (hmem : "\\Flagged" ∉ flags) (hnodup : flags.Nodup) :
    applyFlagInput none (some ["\\Flagged"])
      (applyFlagInput (some ["\\Flagged"]) none flags) = flags := by
  have h1 : applyFlagInput (some ["\\Flagged"]) none flags
      = jsSetDedup [] (flags ++ ["\\Flagged"]) := rfl
  have hnd : (flags ++ ["\\Flagged"]).Nodup := by
    rw [List.nodup_append]
    refine ⟨hnodup, List.nodup_singleton _, ?_⟩
    intro a ha hb
    rw [List.mem_singleton] at hb
    exact hmem (hb ▸ ha)
  have h2 : jsSetDedup [] (flags ++ ["\\Flagged"]) = flags ++ ["\\Flagged"] :=
    jsSetDedup_eq_self _ [] hnd (fun x _ => rfl)
  rw [h1, h2]
  show (flags ++ ["\\Flagged"]).filter
      (fun f => !(["\\Flagged"] : List String).contains f) = flags
  rw [List.filter_append]
  have h3 : (["\\Flagged"] : List String).filter
      (fun f => !(["\\Flagged"] : List String).contains f) = [] := rfl
  rw [h3, List.append_nil]
  apply List.filter_eq_self.mpr
  intro a ha
  have : a ≠ "\\Flagged" := fun h => hmem (h ▸ ha)
  simp [List.contains_cons, this]

/-- Witness for C2 (amended): a `["\Seen"]` flag set survives the
round trip unchanged. -/
theorem applyFlagInput_flag_roundtrip_witness :
    applyFlagInput none (some ["\\Flagged"])
      (applyFlagInput (some ["\\Flagged"]) none ["\\Seen"]) = ["\\Seen"] :=
  applyFlagInput_flag_roundtrip ["\\Seen"] (by decide) (by decide)

/-- C2 counterexample: starting from the stored flag set `["\Flagged"]`,
running `updateFlags` with `addFlags = ["\Flagged"]` and then
`updateFlags` with `removeFlags = ["\Flagged"]` ends with the empty
stored flag set, not the original one — the round trip fails whenever
`\Flagged` is already present. -/
theorem updateFlags_flag_roundtrip_counterexample :
    c2AfterRemove.db.messages = [⟨1, 1, 1, 5, []⟩]
    ∧ c2AfterRemove.db.messages ≠ c2DB.messages :=
  ⟨by decide, by decide⟩

/-- C8 (confirmed): each of `updateFlags`, `moveMessages` and
`deleteMessages` rejects an ownership failure before any network I/O —
when the account does not belong to the requesting user (or, for
`moveMessages`, when the target folder does not belong to the account),
the call errors with an *empty* network trace: no connection is
obtained and no IMAP command is issued. -/
theorem mutations_reject_before_network
    (userId accountId : Nat) (db : DB) (srv : Server)
    (flagIn : FlagUpdateInput) (moveIn : MoveEmailsInput)
    (ids : List Nat) (permanent : Bool)
    (h : accountLookup db accountId userId = none
         ∨ db.folders.find? (fun f =>
             f.id == moveIn.targetFolderId && f.accountId == accountId) = none) :
    ((moveMessages userId accountId moveIn db srv).trace = []
      ∧ (moveMessages userId accountId moveIn db srv).ok = false)
    ∧ (accountLookup db accountId userId = none →
        (updateFlags userId accountId flagIn db srv).trace = []
        ∧ (updateFlags userId accountId flagIn db srv).ok = false
        ∧ (deleteMessages userId accountId ids permanent db srv).trace = []
        ∧ (deleteMessages userId accountId ids permanent db srv).ok = false) := by
  constructor
  · rcases h with h | h
    · simp only [moveMessages, h]
      exact ⟨by trivial, by trivial⟩
    · rcases ha : accountLookup db accountId userId with _ | acc
      · simp only [moveMessages, ha]
        exact ⟨by trivial, by trivial⟩
      · simp only [moveMessages, ha, h]
        exact ⟨by trivial, by trivial⟩
  · intro hacc
    refine ⟨?_, ?_, ?_, ?_⟩ <;> simp only [updateFlags, deleteMessages, hacc]

/-- Witness for C8: against an empty store no account is owned, and all
three mutations end with an empty network trace. -/
theorem mutations_reject_before_network_witness :
    (moveMessages 1 1 ⟨[1], 5⟩ ⟨[], [], []⟩ ⟨[], []⟩).trace = []
    ∧ (updateFlags 1 1 ⟨[1], some ["\\Seen"], none⟩ ⟨[], [], []⟩ ⟨[], []⟩).trace = []
    ∧ (deleteMessages 1 1 [1] true ⟨[], [], []⟩ ⟨[], []⟩).trace = [] := by
  have h := mutations_reject_before_network 1 1 ⟨[], [], []⟩ ⟨[], []⟩
    ⟨[1], some ["\\Seen"], none⟩ ⟨[1], 5⟩ [1] true (Or.inl rfl)
  exact ⟨h.1.1, (h.2 rfl).1, (h.2 rfl).2.2.1⟩

/-- C1 (code bug): permanent `deleteMessages` of row 1 (uid 1) in a
folder that also holds the unrequested uid 2.  The `\Deleted` flag is
added to exactly the requested uid and exactly the requested local row
is removed, but the "expunge" step is
`client.messageDelete('1:*', {uid: true})` — it marks *every* message
of the mailbox `\Deleted` and expunges them all, so the unrequested
uid 2 is removed from the server as well (`"box"` ends empty),
contradicting "messages not in the requested set are left in place on
the server". -/
theorem deleteMessages_permanent_wipes_mailbox :
    (deleteMessages 1 1 [1] true c1DB c1Server).ok = true
    ∧ (deleteMessages 1 1 [1] true c1DB c1Server).db.messages = [⟨2, 1, 1, 2, []⟩]
    ∧ (deleteMessages 1 1 [1] true c1DB c1Server).srv.mailboxes = [⟨"box", []⟩]
    ∧ (deleteMessages 1 1 [1] true c1DB c1Server).trace
        = [NetEvent.getConnection, NetEvent.mailboxOpen "box",
           NetEvent.flagsAdd "box" [1] ["\\Deleted"],
           NetEvent.getConnection, NetEvent.mailboxOpen "box",
           NetEvent.messageDelete "box" "1:*"] :=
  ⟨by decide, by decide, by decide, by decide⟩

/-- Helper: `List.contains` agrees with membership on strings. -/
theorem strContains_iff (l : List String) (x : String) :
    l.contains x = true ↔ x ∈ l := by simp

/-- Helper: the update branch establishes agreement with its mailbox entry. -/
theorem agreesWith_updateFolderRow (m : MailboxEntry) (now : Nat) (r : FolderRec) :
    agreesWith m (updateFolderRow m now r) :=
  ⟨rfl, rfl, rfl, rfl, rfl, rfl⟩

/-- Helper: a freshly inserted row agrees with its mailbox entry. -/
theorem agreesWith_folderDataOf (a : Nat) (m : MailboxEntry) (now nid : Nat) :
    agreesWith m (folderDataOf a m now nid) :=
  ⟨rfl, rfl, rfl, rfl, rfl, rfl⟩

/-- Helper: agreement ignores `lastSyncAt`. -/
theorem agreesWith_setLastSync (m : MailboxEntry) (r : FolderRec) (t : Option Nat)
    (h : agreesWith m r) : agreesWith m { r with lastSyncAt := t } := h

/-- Helper: on an agreeing row the update branch only moves `lastSyncAt`. -/
theorem updateFolderRow_of_agrees (m : MailboxEntry) (now : Nat) (r : FolderRec)
    (h : agreesWith m r) : updateFolderRow m now r = { r with lastSyncAt := some now } := by
  obtain ⟨h1, h2, h3, h4, h5, h6⟩ := h
  cases r
  simp only [updateFolderRow] at *
  simp_all

/-- Helper: the update branch never rewrites `path`. -/
theorem updateFolderRow_path (m : MailboxEntry) (now : Nat) (r : FolderRec) :
    (updateFolderRow m now r).path = r.path := rfl

/-- Helper: the update branch never rewrites `accountId`. -/
theorem updateFolderRow_accountId (m : MailboxEntry) (now : Nat) (r : FolderRec) :
    (updateFolderRow m now r).accountId = r.accountId := rfl

/-- Helper (frame): a row whose path matches no processed mailbox comes
through the loop untouched. -/
theorem syncFoldersLoop_frame (a : Nat) (ep : List String) (now : Nat) :
    ∀ (ms : List MailboxEntry) (tbl : List FolderRec) (nid : Nat) (r : FolderRec),
      r ∈ syncFoldersLoop a ep now ms tbl nid →
      (∀ m ∈ ms, r.path ≠ m.path) →
      r ∈ tbl := by
  intro ms
  induction ms with
  | nil => intro tbl nid r hr _; exact hr
  | cons m ms ih =>
    intro tbl nid r hr hne
    rw [syncFoldersLoop] at hr
    split at hr
    · have hr' := ih _ _ r hr (fun m' hm' => hne m' (List.mem_cons_of_mem _ hm'))
      rcases List.mem_map.mp hr' with ⟨r0, hr0, heq⟩
      by_cases hc : (r0.accountId == a && r0.path == m.path) = true
      · rw [if_pos hc] at heq
        exfalso
        apply hne m (List.mem_cons_self _ _)
        rw [← heq, updateFolderRow_path]
        exact (of_decide_eq_true (Bool.and_elim_right hc) : r0.path = m.path)
      · rw [if_neg hc] at heq
        exact heq ▸ hr0
    · have hr' := ih _ _ r hr (fun m' hm' => hne m' (List.mem_cons_of_mem _ hm'))
      rcases List.mem_append.mp hr' with h | h
      · exact h
      · exfalso
        apply hne m (List.mem_cons_self _ _)
        rw [List.mem_singleton] at h
        rw [h]
        rfl

/-- Helper: every row of the loop's result either descends from an
input row (same path and account) or was inserted for a listed mailbox. -/
theorem syncFoldersLoop_mem_path (a : Nat) (ep : List String) (now : Nat) :
    ∀ (ms : List MailboxEntry) (tbl : List FolderRec) (nid : Nat) (r : FolderRec),
      r ∈ syncFoldersLoop a ep now ms tbl nid →
      (∃ r0 ∈ tbl, r.path = r0.path ∧ r.accountId = r0.accountId)
      ∨ (∃ m ∈ ms, r.path = m.path ∧ r.accountId = a) := by
  intro ms
  induction ms with
  | nil =>
    intro tbl nid r hr
    exact Or.inl ⟨r, hr, rfl, rfl⟩
  | cons m ms ih =>
    intro tbl nid r hr
    rw [syncFoldersLoop] at hr
    split at hr
    · rcases ih _ _ r hr with ⟨r1, hr1, hp, ha⟩ | ⟨m', hm', hp, ha⟩
      · rcases List.mem_map.mp hr1 with ⟨r0, hr0, heq⟩
        by_cases hc : (r0.accountId == a && r0.path == m.path) = true
        · rw [if_pos hc] at heq
          refine Or.inr ⟨m, List.mem_cons_self _ _, ?_, ?_⟩
          · rw [hp, ← heq, updateFolderRow_path]
            exact (of_decide_eq_true (Bool.and_elim_right hc) : r0.path = m.path)
          · rw [ha, ← heq, updateFolderRow_accountId]
            exact (of_decide_eq_true (Bool.and_elim_left hc) : r0.accountId = a)
        · rw [if_neg hc] at heq
          exact Or.inl ⟨r0, hr0, heq ▸ hp, heq ▸ ha⟩
      · exact Or.inr ⟨m', List.mem_cons_of_mem _ hm', hp, ha⟩
    · rcases ih _ _ r hr with ⟨r1, hr1, hp, ha⟩ | ⟨m', hm', hp, ha⟩
      · rcases List.mem_append.mp hr1 with h | h
        · exact Or.inl ⟨r1, h, hp, ha⟩
        · rw [List.mem_singleton] at h
          subst h
          exact Or.inr ⟨m, List.mem_cons_self _ _, hp, ha⟩
      · exact Or.inr ⟨m', List.mem_cons_of_mem _ hm', hp, ha⟩

/-- Helper: a `(account, path)` pair present in the table stays present
through the loop. -/
theorem syncFoldersLoop_paths_mono (a : Nat) (ep : List String) (now : Nat) :
    ∀ (ms : List MailboxEntry) (tbl : List FolderRec) (nid : Nat) (p : String),
      (∃ r ∈ tbl, r.accountId = a ∧ r.path = p) →
      ∃ r ∈ syncFoldersLoop a ep now ms tbl nid, r.accountId = a ∧ r.path = p := by
  intro ms
  induction ms with
  | nil => intro tbl nid p h; exact h
  | cons m ms ih =>
    intro tbl nid p h
    rw [syncFoldersLoop]
    split
    · apply ih
      rcases h with ⟨r0, hr0, ha, hp⟩
      refine ⟨if r0.accountId == a && r0.path == m.path then updateFolderRow m now r0 else r0,
        List.mem_map.mpr ⟨r0, hr0, rfl⟩, ?_⟩
      by_cases hc : (r0.accountId == a && r0.path == m.path) = true
      · rw [if_pos hc]
        exact ⟨ha, hp⟩
      · rw [if_neg hc]
        exact ⟨ha, hp⟩
    · apply ih
      rcases h with ⟨r0, hr0, ha, hp⟩
      exact ⟨r0, List.mem_append_left _ hr0, ha, hp⟩

/-- Helper: after the loop, every listed mailbox has a row of the
account at its path. -/
theorem syncFoldersLoop_covers (a : Nat) (ep : List String) (now : Nat) :
    ∀ (ms : List MailboxEntry) (tbl : List FolderRec) (nid : Nat),
      (∀ p, ep.contains p = true → ∃ r ∈ tbl, r.accountId = a ∧ r.path = p) →
      ∀ m ∈ ms, ∃ r ∈ syncFoldersLoop a ep now ms tbl nid,
        r.accountId = a ∧ r.path = m.path := by
  intro ms
  induction ms with
  | nil => intro tbl nid _ m hm; exact absurd hm (List.not_mem_nil m)
  | cons m ms ih =>
    intro tbl nid hep m' hm'
    rw [syncFoldersLoop]
    rcases List.mem_cons.mp hm' with rfl | hm'
    · split
      · rename_i hcont
        apply syncFoldersLoop_paths_mono
        rcases hep _ hcont with ⟨r0, hr0, ha, hp⟩
        refine ⟨if r0.accountId == a && r0.path == m'.path then updateFolderRow m' now r0 else r0,
          List.mem_map.mpr ⟨r0, hr0, rfl⟩, ?_⟩
        by_cases hc : (r0.accountId == a && r0.path == m'.path) = true
        · rw [if_pos hc]
          exact ⟨(updateFolderRow_accountId _ _ _).trans ha, (updateFolderRow_path _ _ _).trans hp⟩
        · rw [if_neg hc]
          exact ⟨ha, hp⟩
      · apply syncFoldersLoop_paths_mono
        exact ⟨folderDataOf a m' now nid, List.mem_append_right _ (List.mem_singleton_self _), rfl, rfl⟩
    · split
      · refine ih _ _ ?_ m' hm'
        intro p hp
        rcases hep p hp with ⟨r0, hr0, ha, hpp⟩
        refine ⟨if r0.accountId == a && r0.path == m.path then updateFolderRow m now r0 else r0,
          List.mem_map.mpr ⟨r0, hr0, rfl⟩, ?_⟩
        by_cases hc : (r0.accountId == a && r0.path == m.path) = true
        · rw [if_pos hc]
          exact ⟨(updateFolderRow_accountId _ _ _).trans ha, (updateFolderRow_path _ _ _).trans hpp⟩
        · rw [if_neg hc]
          exact ⟨ha, hpp⟩
      · refine ih _ _ ?_ m' hm'
        intro p hp
        rcases hep p hp with ⟨r0, hr0, ha, hpp⟩
        exact ⟨r0, List.mem_append_left _ hr0, ha, hpp⟩

/-- Helper: with duplicate-free server paths, every account row whose
path matches a listed mailbox agrees with that mailbox after the loop. -/
theorem syncFoldersLoop_agrees (a : Nat) (ep : List String) (now : Nat) :
    ∀ (ms : List MailboxEntry) (tbl : List FolderRec) (nid : Nat),
      (ms.map (fun m => m.path)).Nodup →
      (∀ r ∈ tbl, r.accountId = a →
        ep.contains r.path = true ∨ r.path ∉ ms.map (fun m => m.path)) →
      ∀ r ∈ syncFoldersLoop a ep now ms tbl nid, r.accountId = a →
        ∀ m ∈ ms, r.path = m.path → agreesWith m r := by
  intro ms
  induction ms with
  | nil =>
    intro tbl nid _ _ r _ _ m hm
    exact absurd hm (List.not_mem_nil m)
  | cons m ms ih =>
    intro tbl nid hN hsub r hr hra m' hm' hpath
    have hN' : (ms.map (fun mm => mm.path)).Nodup := (List.nodup_cons.mp hN).2
    have hheadnot : m.path ∉ ms.map (fun mm => mm.path) := (List.nodup_cons.mp hN).1
    rw [syncFoldersLoop] at hr
    split at hr
    · rename_i hcont
      rcases List.mem_cons.mp hm' with hEq | hmt
      · subst hEq
        have hnot : ∀ mm ∈ ms, r.path ≠ mm.path := by
          intro mm hmm hc
          exact hheadnot (hpath ▸ hc ▸ List.mem_map.mpr ⟨mm, hmm, rfl⟩)
        have hrt := syncFoldersLoop_frame a ep now ms _ nid r hr hnot
        rcases List.mem_map.mp hrt with ⟨r0, hr0, heq⟩
        by_cases hc : (r0.accountId == a && r0.path == m'.path) = true
        · rw [if_pos hc] at heq
          exact heq ▸ agreesWith_updateFolderRow m' now r0
        · rw [if_neg hc] at heq
          subst heq
          exfalso
          apply hc
          rw [Bool.and_eq_true, beq_iff_eq, beq_iff_eq]
          exact ⟨hra, hpath⟩
      · refine ih _ nid hN' ?_ r hr hra m' hmt hpath
        intro r' hr' hra'
        rcases List.mem_map.mp hr' with ⟨r0, hr0, heq⟩
        have hsame : r'.path = r0.path ∧ r'.accountId = r0.accountId := by
          by_cases hc : (r0.accountId == a && r0.path == m.path) = true
          · rw [if_pos hc] at heq
            exact ⟨heq ▸ updateFolderRow_path _ _ _, heq ▸ updateFolderRow_accountId _ _ _⟩
          · rw [if_neg hc] at heq
            exact ⟨heq ▸ rfl, heq ▸ rfl⟩
        rcases hsub r0 hr0 (hsame.2 ▸ hra') with h | h
        · exact Or.inl (hsame.1 ▸ h)
        · refine Or.inr ?_
          rw [hsame.1]
          intro hcc
          exact h (List.mem_cons_of_mem _ hcc)
    · rename_i hcont
      rcases List.mem_cons.mp hm' with hEq | hmt
      · subst hEq
        have hnot : ∀ mm ∈ ms, r.path ≠ mm.path := by
          intro mm hmm hc
          exact hheadnot (hpath ▸ hc ▸ List.mem_map.mpr ⟨mm, hmm, rfl⟩)
        have hrt := syncFoldersLoop_frame a ep now ms _ (nid + 1) r hr hnot
        rcases List.mem_append.mp hrt with h | h
        · rcases hsub r h hra with hepc | hnotin
          · exact absurd (hpath ▸ hepc) hcont
          · exact absurd (List.mem_cons_self _ _)
              (by intro hmem; exact hnotin (hpath ▸ List.mem_map.mpr ⟨m', hmem, rfl⟩))
        · rw [List.mem_singleton] at h
          exact h ▸ agreesWith_folderDataOf a m' now nid
      · refine ih _ (nid + 1) hN' ?_ r hr hra m' hmt hpath
        intro r' hr' hra'
        rcases List.mem_append.mp hr' with h | h
        · rcases hsub r' h hra' with hh | hh
          · exact Or.inl hh
          · exact Or.inr (fun hcc => hh (List.mem_cons_of_mem _ hcc))
        · rw [List.mem_singleton] at h
          subst h
          refine Or.inr ?_
          intro hcc
          exact hheadnot hcc

/-- Helper: when every listed path already exists and every matching
row agrees with its (unique) mailbox, the loop only rewrites
`lastSyncAt` on the account's matching rows. -/
theorem syncFoldersLoop_all_updates (a : Nat) (ep : List String) (now : Nat) :
    ∀ (ms : List MailboxEntry) (tbl : List FolderRec) (nid : Nat),
      (∀ m ∈ ms, ep.contains m.path = true) →
      (ms.map (fun m => m.path)).Nodup →
      (∀ r ∈ tbl, r.accountId = a → ∀ m ∈ ms, r.path = m.path → agreesWith m r) →
      syncFoldersLoop a ep now ms tbl nid =
        tbl.map (fun r =>
          if r.accountId == a && ms.any (fun m => r.path == m.path) then
            { r with lastSyncAt := some now }
          else r) := by
  intro ms
  induction ms with
  | nil =>
    intro tbl nid _ _ _
    rw [syncFoldersLoop]
    symm
    simp
  | cons m ms ih =>
    intro tbl nid hep hN hag
    have hN' : (ms.map (fun mm => mm.path)).Nodup := (List.nodup_cons.mp hN).2
    have hheadnot : m.path ∉ ms.map (fun mm => mm.path) := (List.nodup_cons.mp hN).1
    rw [syncFoldersLoop, if_pos (hep m (List.mem_cons_self _ _))]
    have hmapf : tbl.map (fun r =>
          if r.accountId == a && r.path == m.path then updateFolderRow m now r else r)
        = tbl.map (fun r =>
          if r.accountId == a && r.path == m.path then { r with lastSyncAt := some now } else r) := by
      apply List.map_congr_left
      intro r hr
      by_cases hc : (r.accountId == a && r.path == m.path) = true
      · rw [if_pos hc, if_pos hc]
        have hands := Bool.and_eq_true_iff.mp hc
        exact updateFolderRow_of_agrees m now r
          (hag r hr (beq_iff_eq.mp hands.1) m (List.mem_cons_self _ _) (beq_iff_eq.mp hands.2))
      · rw [if_neg hc, if_neg hc]
    rw [hmapf]
    rw [ih _ nid (fun mm hmm => hep mm (List.mem_cons_of_mem _ hmm)) hN' ?hag2]
    case hag2 =>
      intro r' hr' hra' m' hm' hpath'
      rcases List.mem_map.mp hr' with ⟨r0, hr0, heq⟩
      by_cases hc : (r0.accountId == a && r0.path == m.path) = true
      · subst heq
        rw [if_pos hc]
        rw [if_pos hc] at hra' hpath'
        exact agreesWith_setLastSync m' r0 _
          (hag r0 hr0 hra' m' (List.mem_cons_of_mem _ hm') hpath')
      · subst heq
        rw [if_neg hc]
        rw [if_neg hc] at hra' hpath'
        exact hag r0 hr0 hra' m' (List.mem_cons_of_mem _ hm') hpath'
    rw [List.map_map]
    apply List.map_congr_left
    intro r hr
    simp only [Function.comp, List.any_cons]
    have hany : ms.any (fun mm => m.path == mm.path) = false := by
      rw [List.any_eq_false]
      intro mm hmm hcc
      exact hheadnot (beq_iff_eq.mp hcc ▸ List.mem_map.mpr ⟨mm, hmm, rfl⟩)
    by_cases hpm : r.path = m.path
    · by_cases hacc2 : r.accountId = a
      · simp [hpm, hacc2, hany]
      · simp [hacc2]
    · by_cases hacc2 : r.accountId = a
      · simp [hpm, hacc2]
      · simp [hacc2]

/-- Helper: after `syncFolders`, every remaining row of the account has
a path the server listed. -/
theorem syncFolders_a_rows_seen (a : Nat) (tbl : List FolderRec)
    (mbs : List MailboxEntry) (t i : Nat) :
    ∀ r ∈ syncFolders a tbl mbs t i, r.accountId = a →
      r.path ∈ mbs.map (fun m => m.path) := by
  intro r hr hra
  have hdi : ∀ r1 ∈ syncFoldersLoop a
      ((tbl.filter (fun f => f.accountId == a)).map (fun f => f.path)) t mbs tbl i,
      r1.accountId = a → r1.path ∉ mbs.map (fun m => m.path) →
      r1.path ∈ (tbl.filter (fun f => f.accountId == a)).map (fun f => f.path) := by
    intro r1 hr1 hra1 _
    rcases syncFoldersLoop_mem_path a _ t mbs tbl i r1 hr1 with ⟨r0, hr0, hp, ha⟩ | ⟨m, hm, hp, ha⟩
    · exact hp ▸ List.mem_map.mpr ⟨r0, List.mem_filter.mpr ⟨hr0, beq_iff_eq.mpr (ha ▸ hra1)⟩, rfl⟩
    · rename_i hnm
      exact absurd (List.mem_map.mpr ⟨m, hm, hp.symm⟩) hnm
  simp only [syncFolders] at hr
  split at hr
  · rename_i hlen
    have hmem := List.mem_of_mem_filter hr
    have hkeep := List.of_mem_filter hr
    by_contra hnot
    have hin : r.path ∈ ((tbl.filter (fun f => f.accountId == a)).map (fun f => f.path)).filter
        (fun p => !(mbs.map (fun m => m.path)).contains p) := by
      apply List.mem_filter.mpr
      refine ⟨hdi r hmem hra hnot, ?_⟩
      rw [Bool.not_eq_true']
      rw [← Bool.not_eq_true]
      intro hcc
      exact hnot ((strContains_iff _ _).mp hcc)
    have : (((tbl.filter (fun f => f.accountId == a)).map (fun f => f.path)).filter
        (fun p => !(mbs.map (fun m => m.path)).contains p)).contains r.path = true :=
      (strContains_iff _ _).mpr hin
    rw [Bool.not_eq_true'] at hkeep
    rw [Bool.and_eq_false_iff] at hkeep
    rcases hkeep with h | h
    · exact absurd (beq_iff_eq.mpr hra) (by rw [h]; exact Bool.false_ne_true)
    · exact absurd this (by rw [h]; exact Bool.false_ne_true)
  · rename_i hlen
    have hzero : (((tbl.filter (fun f => f.accountId == a)).map (fun f => f.path)).filter
        (fun p => !(mbs.map (fun m => m.path)).contains p)) = [] := by
      rcases Nat.eq_zero_or_pos (((tbl.filter (fun f => f.accountId == a)).map
          (fun f => f.path)).filter (fun p => !(mbs.map (fun m => m.path)).contains p)).length
        with h | h
      · exact List.length_eq_zero.mp h
      · exact absurd h hlen
    by_contra hnot
    have hin : r.path ∈ (((tbl.filter (fun f => f.accountId == a)).map (fun f => f.path)).filter
        (fun p => !(mbs.map (fun m => m.path)).contains p)) := by
      apply List.mem_filter.mpr
      refine ⟨hdi r hr hra hnot, ?_⟩
      rw [Bool.not_eq_true']
      rw [← Bool.not_eq_true]
      intro hcc
      exact hnot ((strContains_iff _ _).mp hcc)
    rw [hzero] at hin
    exact List.not_mem_nil _ hin

/-- Helper: after `syncFolders`, every listed mailbox has a row of the
account at its path. -/
theorem syncFolders_covers (a : Nat) (tbl : List FolderRec)
    (mbs : List MailboxEntry) (t i : Nat) :
    ∀ m ∈ mbs, ∃ r ∈ syncFolders a tbl mbs t i,
      r.accountId = a ∧ r.path = m.path := by
  intro m hm
  have hloop := syncFoldersLoop_covers a
    ((tbl.filter (fun f => f.accountId == a)).map (fun f => f.path)) t mbs tbl i
    (by
      intro p hp
      rcases List.mem_map.mp ((strContains_iff _ _).mp hp) with ⟨r0, hr0, hpp⟩
      have hr0' := List.mem_filter.mp hr0
      exact ⟨r0, hr0'.1, beq_iff_eq.mp hr0'.2, hpp⟩) m hm
  rcases hloop with ⟨r, hr, hra, hrp⟩
  simp only [syncFolders]
  split
  · refine ⟨r, ?_, hra, hrp⟩
    apply List.mem_filter.mpr
    refine ⟨hr, ?_⟩
    rw [Bool.not_eq_true']
    rw [Bool.and_eq_false_iff]
    right
    rw [← Bool.not_eq_true]
    intro hcc
    have hmemdel := (strContains_iff _ _).mp hcc
    have := List.of_mem_filter hmemdel
    rw [Bool.not_eq_true'] at this
    have hseen : (mbs.map (fun mm => mm.path)).contains r.path = true :=
      (strContains_iff _ _).mpr (List.mem_map.mpr ⟨m, hm, hrp.symm⟩)
    exact absurd hseen (by rw [this]; exact Bool.false_ne_true)
  · exact ⟨r, hr, hra, hrp⟩

/-- Helper: after `syncFolders` (duplicate-free server paths), every
account row agrees with the mailbox at its path. -/
theorem syncFolders_agrees_all (a : Nat) (tbl : List FolderRec)
    (mbs : List MailboxEntry) (t i : Nat)
    (hN : (mbs.map (fun m => m.path)).Nodup) :
    ∀ r ∈ syncFolders a tbl mbs t i, r.accountId = a →
      ∀ m ∈ mbs, r.path = m.path → agreesWith m r := by
  have hloop := syncFoldersLoop_agrees a
    ((tbl.filter (fun f => f.accountId == a)).map (fun f => f.path)) t mbs tbl i hN
    (by
      intro r hr hra
      exact Or.inl ((strContains_iff _ _).mpr
        (List.mem_map.mpr ⟨r, List.mem_filter.mpr ⟨hr, beq_iff_eq.mpr hra⟩, rfl⟩)))
  intro r hr hra m hm hp
  simp only [syncFolders] at hr
  split at hr
  · exact hloop r (List.mem_of_mem_filter hr) hra m hm hp
  · exact hloop r hr hra m hm hp

/-- Helper: running `syncFolders` on a table that is already in sync
with the server list (every account row's path listed, every listed
path present, every matching row agreeing) inserts and deletes nothing
and only rewrites `lastSyncAt` on the account's rows. -/
theorem syncFolders_stable (a : Nat) (R1 : List FolderRec)
    (mbs : List MailboxEntry) (t2 i2 : Nat)
    (hN : (mbs.map (fun m => m.path)).Nodup)
    (hseen : ∀ r ∈ R1, r.accountId = a → r.path ∈ mbs.map (fun m => m.path))
    (hcov : ∀ m ∈ mbs, ∃ r ∈ R1, r.accountId = a ∧ r.path = m.path)
    (hagr : ∀ r ∈ R1, r.accountId = a → ∀ m ∈ mbs, r.path = m.path → agreesWith m r) :
    syncFolders a R1 mbs t2 i2 =
      R1.map (fun r =>
        if r.accountId == a then { r with lastSyncAt := some t2 } else r) := by
  have hep2 : ∀ m ∈ mbs,
      ((R1.filter (fun f => f.accountId == a)).map (fun f => f.path)).contains m.path = true := by
    intro m hm
    rcases hcov m hm with ⟨r, hr, hra, hrp⟩
    exact (strContains_iff _ _).mpr
      (List.mem_map.mpr ⟨r, List.mem_filter.mpr ⟨hr, beq_iff_eq.mpr hra⟩, hrp⟩)
  have hloop := syncFoldersLoop_all_updates a
    ((R1.filter (fun f => f.accountId == a)).map (fun f => f.path)) t2 mbs R1 i2
    hep2 hN (fun r hr hra m hm hp => hagr r hr hra m hm hp)
  have hdel : ((R1.filter (fun f => f.accountId == a)).map (fun f => f.path)).filter
      (fun p => !(mbs.map (fun m => m.path)).contains p) = [] := by
    apply List.filter_eq_nil_iff.mpr
    intro p hp
    rcases List.mem_map.mp hp with ⟨r, hr, hpp⟩
    have hr' := List.mem_filter.mp hr
    have hmem := hseen r hr'.1 (beq_iff_eq.mp hr'.2)
    intro hcc
    rw [Bool.not_eq_true'] at hcc
    have hc2 : (mbs.map (fun m => m.path)).contains p = true :=
      (strContains_iff _ _).mpr (hpp ▸ hmem)
    exact absurd hc2 (by rw [hcc]; exact Bool.false_ne_true)
  simp only [syncFolders]
  rw [hloop, hdel]
  simp only [List.length_nil, gt_iff_lt, Nat.lt_irrefl, if_false]
  apply List.map_congr_left
  intro r hr
  by_cases hacc : r.accountId = a
  · have hpmem := hseen r hr hacc
    rcases List.mem_map.mp hpmem with ⟨m, hm, hp⟩
    have hany : mbs.any (fun mm => r.path == mm.path) = true :=
      List.any_eq_true.mpr ⟨m, hm, beq_iff_eq.mpr hp.symm⟩
    simp [hacc, hany]
  · simp [hacc]

/-- C7 (amended): a second `syncFolders` against an unchanged server
mailbox list (with duplicate-free paths) performs no inserts and no
deletes and leaves every stored folder row unchanged *except* its
`lastSyncAt` field, which is rewritten to the second call's timestamp —
the update statement is re-issued for every listed folder, so the rows
are not byte-for-byte unchanged. -/
theorem syncFolders_second_run (a : Nat) (tbl : List FolderRec)
    (mbs : List MailboxEntry) (t1 t2 i1 i2 : Nat)
    (hN : (mbs.map (fun m => m.path)).Nodup) :
    syncFolders a (syncFolders a tbl mbs t1 i1) mbs t2 i2 =
      (syncFolders a tbl mbs t1 i1).map (fun r =>
        if r.accountId == a then { r with lastSyncAt := some t2 } else r) :=
  syncFolders_stable a (syncFolders a tbl mbs t1 i1) mbs t2 i2 hN
    (syncFolders_a_rows_seen a tbl mbs t1 i1)
    (syncFolders_covers a tbl mbs t1 i1)
    (syncFolders_agrees_all a tbl mbs t1 i1 hN)

/-- Witness for C7 (amended) at a concrete one-mailbox server. -/
theorem syncFolders_second_run_witness :
    syncFolders 1 (syncFolders 1 [] [c7Mailbox] 1 10) [c7Mailbox] 2 20 =
      (syncFolders 1 [] [c7Mailbox] 1 10).map (fun r =>
        if r.accountId == 1 then { r with lastSyncAt := some 2 } else r) :=
  syncFolders_second_run 1 [] [c7Mailbox] 1 2 10 20 (by decide)

/-- C7 counterexample: calling `syncFolders` twice in a row with no
server-side change does mutate folder rows — at this concrete input the
second call's result differs from the first's (`lastSyncAt` moved from
instant 1 to instant 2), refuting "no row mutations on the second
call / byte-for-byte unchanged". -/
theorem syncFolders_second_run_mutates :
    syncFolders 1 (syncFolders 1 [] [c7Mailbox] 1 10) [c7Mailbox] 2 20 ≠
      syncFolders 1 [] [c7Mailbox] 1 10 := by decide
